import Mathlib

set_option maxRecDepth 1000000

/-!
Verification development for the Sway cross-chain swap repository.

We shallowly embed the parts of the repository that the specification's
claims are about:

* the hash primitives the scripts call (`sha3_256`, `keccak256` via
  `ethers.id`, and `blake2b` with a 32-byte digest, from `@noble/hashes`
  and `sui::hash`), implemented bit-for-bit over byte lists (`List Nat`,
  each entry `< 256`, 64-bit lanes as `Nat` reduced mod `2 ^ 64`);
* the two Move modules in `sui/locker/sources/shared_locker.move`
  (`fusion_locker::shared_locker` and `fusion_locker::locker`);
* the correlation bookkeeping of `scripts/maker.ts` and the forwarding
  handlers of `scripts/relayer.ts`.
-/

/- ## 64-bit word helpers -/

/-- `2 ^ 64`, the modulus for 64-bit lane arithmetic. -/
def w64 : Nat := 18446744073709551616

/-- All-ones 64-bit mask, used for bitwise complement. -/
def mask64 : Nat := 18446744073709551615

/-- Addition mod `2 ^ 64`. -/
def add64 (a b : Nat) : Nat := (a + b) % w64

/-- Rotate a 64-bit word left by `k` (for `0 ≤ k < 64`, argument `< 2 ^ 64`). -/
def rotl64 (x k : Nat) : Nat := ((x <<< k) % w64) ||| (x >>> (64 - k))

/-- Rotate a 64-bit word right by `k`. -/
def rotr64 (x k : Nat) : Nat := (x >>> k) ||| (((x &&& (2 ^ k - 1)) <<< (64 - k)) % w64)

/-- Read a lane from a state list, defaulting to `0` out of range. -/
def kGet (s : List Nat) (i : Nat) : Nat := s.getD i 0

/-- Interpret up to eight bytes as a little-endian 64-bit lane. -/
def bytesToLane (bs : List Nat) : Nat := bs.foldr (fun b acc => acc * 256 + b) 0

/-- Serialize a 64-bit lane as eight little-endian bytes. -/
def laneBytes (n : Nat) : List Nat := (List.range 8).map (fun i => (n >>> (8 * i)) % 256)

/-- Split a list into chunks of `rate` elements (fuel-driven). -/
def chunksAux (rate : Nat) : Nat → List Nat → List (List Nat)
  | 0, _ => []
  | _, [] => []
  | fuel + 1, l => l.take rate :: chunksAux rate fuel (l.drop rate)

/- ## Keccak-f[1600] and the SHA-3 / Keccak-256 sponges -/

/-- Keccak round constants. -/
def keccakRC : List Nat :=
  [0x0000000000000001, 0x0000000000008082, 0x800000000000808a, 0x8000000080008000,
   0x000000000000808b, 0x0000000080000001, 0x8000000080008081, 0x8000000000008009,
   0x000000000000008a, 0x0000000000000088, 0x0000000080008009, 0x000000008000000a,
   0x000000008000808b, 0x800000000000008b, 0x8000000000008089, 0x8000000000008003,
   0x8000000000008002, 0x8000000000000080, 0x000000000000800a, 0x800000008000000a,
   0x8000000080008081, 0x8000000000008080, 0x0000000080000001, 0x8000000080008008]

/-- Keccak ρ rotation offsets, indexed by `x + 5 * y`, generated by the
FIPS 202 walk: starting from `(x, y) = (1, 0)`, step `t` writes
`(t + 1)(t + 2)/2 mod 64` at the current coordinate and moves to
`(y, (2x + 3y) mod 5)`; the origin keeps offset `0`. -/
def keccakRot : List Nat :=
  ((List.range 24).foldl
    (fun st t =>
      let x := st.1
      let y := st.2.1
      let tab := st.2.2.set (x + 5 * y) ((t + 1) * (t + 2) / 2 % 64)
      (y, (2 * x + 3 * y) % 5, tab))
    (1, 0, List.replicate 25 0)).2.2

/-- Keccak θ step. -/
def keccakTheta (A : List Nat) : List Nat :=
  let C := (List.range 5).map (fun x =>
    kGet A x ^^^ kGet A (x + 5) ^^^ kGet A (x + 10) ^^^ kGet A (x + 15) ^^^ kGet A (x + 20))
  let D := (List.range 5).map (fun x =>
    kGet C ((x + 4) % 5) ^^^ rotl64 (kGet C ((x + 1) % 5)) 1)
  (List.range 25).map (fun i => kGet A i ^^^ kGet D (i % 5))

/-- Keccak ρ and π steps combined. -/
def keccakRhoPi (A : List Nat) : List Nat :=
  (List.range 25).foldl (fun B i =>
    let x := i % 5
    let y := i / 5
    let j := y + 5 * ((2 * x + 3 * y) % 5)
    B.set j (rotl64 (kGet A i) (kGet keccakRot i))) (List.replicate 25 0)

/-- Keccak χ step. -/
def keccakChi (B : List Nat) : List Nat :=
  (List.range 25).map (fun i =>
    let x := i % 5
    let y := i / 5
    kGet B i ^^^ ((kGet B ((x + 1) % 5 + 5 * y) ^^^ mask64) &&& kGet B ((x + 2) % 5 + 5 * y)))

/-- One Keccak round including ι. -/
def keccakRound (A : List Nat) (rc : Nat) : List Nat :=
  let B := keccakChi (keccakRhoPi (keccakTheta A))
  B.set 0 (kGet B 0 ^^^ rc)

/-- The full Keccak-f[1600] permutation (24 rounds). -/
def keccakF (A : List Nat) : List Nat := keccakRC.foldl keccakRound A

/-- Multi-rate padding with domain-separation byte `ds`
(`0x06` for SHA-3, `0x01` for legacy Keccak as used by Ethereum). -/
def keccakPad (rate ds : Nat) (m : List Nat) : List Nat :=
  let padLen := rate - m.length % rate
  if padLen = 1 then m ++ [ds ^^^ 0x80]
  else m ++ [ds] ++ List.replicate (padLen - 2) 0 ++ [0x80]

/-- Absorb one 136-byte block into the sponge state. -/
def keccakAbsorb (s : List Nat) (block : List Nat) : List Nat :=
  let bl := (List.range 17).map (fun i => bytesToLane ((block.drop (8 * i)).take 8))
  keccakF ((List.range 25).map (fun i => kGet s i ^^^ kGet bl i))

/-- The 256-bit Keccak sponge (rate 136) with domain byte `ds`. -/
def keccakSponge (ds : Nat) (m : List Nat) : List Nat :=
  let p := keccakPad 136 ds m
  let blocks := chunksAux 136 p.length p
  let s := blocks.foldl keccakAbsorb (List.replicate 25 0)
  ((List.range 4).map (fun i => laneBytes (kGet s i))).flatten

/-- `sha3_256` from `@noble/hashes/sha3` / `sui::hash::sha3_256`. -/
def sha3_256 (m : List Nat) : List Nat := keccakSponge 0x06 m

/-- Ethereum-style `keccak256` (the hash behind `ethers.id`). -/
def keccak256 (m : List Nat) : List Nat := keccakSponge 0x01 m

/- ## BLAKE2b with a 32-byte digest -/

/-- BLAKE2b initialization vector. -/
def blakeIV : List Nat :=
  [0x6a09e667f3bcc908, 0xbb67ae8584caa73b, 0x3c6ef372fe94f82b, 0xa54ff53a5f1d36f1,
   0x510e527fade682d1, 0x9b05688c2b3e6c1f, 0x1f83d9abfb41bd6b, 0x5be0cd19137e2179]

/-- BLAKE2b message schedule, ten rows of sixteen indices. -/
def blakeSigma : List (List Nat) :=
  [[0, 1, 2, 3, 4, 5, 6, 7, 8, 9, 10, 11, 12, 13, 14, 15],
   [14, 10, 4, 8, 9, 15, 13, 6, 1, 12, 0, 2, 11, 7, 5, 3],
   [11, 8, 12, 0, 5, 2, 15, 13, 10, 14, 3, 6, 7, 1, 9, 4],
   [7, 9, 3, 1, 13, 12, 11, 14, 2, 6, 5, 10, 4, 0, 15, 8],
   [9, 0, 5, 7, 2, 4, 10, 15, 14, 1, 11, 12, 6, 8, 3, 13],
   [2, 12, 6, 10, 0, 11, 8, 3, 4, 13, 7, 5, 15, 14, 1, 9],
   [12, 5, 1, 15, 14, 13, 4, 10, 0, 7, 6, 3, 9, 2, 8, 11],
   [13, 11, 7, 14, 12, 1, 3, 9, 5, 0, 15, 4, 8, 6, 2, 10],
   [6, 15, 14, 9, 11, 3, 0, 8, 12, 2, 13, 7, 1, 4, 10, 5],
   [10, 2, 8, 4, 7, 6, 1, 5, 15, 11, 9, 14, 3, 12, 13, 0]]

/-- The BLAKE2b G mixing function on working vector `v`. -/
def blakeG (v : List Nat) (a b c d x y : Nat) : List Nat :=
  let va := add64 (add64 (kGet v a) (kGet v b)) x
  let vd := rotr64 (kGet v d ^^^ va) 32
  let vc := add64 (kGet v c) vd
  let vb := rotr64 (kGet v b ^^^ vc) 24
  let va2 := add64 (add64 va vb) y
  let vd2 := rotr64 (vd ^^^ va2) 16
  let vc2 := add64 vc vd2
  let vb2 := rotr64 (vb ^^^ vc2) 63
  ((((v.set a va2).set b vb2).set c vc2).set d vd2)

/-- One BLAKE2b round: columns then diagonals. -/
def blakeRound (m : List Nat) (v : List Nat) (r : Nat) : List Nat :=
  let s := (blakeSigma.getD (r % 10) [])
  let mi := fun i => kGet m (kGet s i)
  let v1 := blakeG v 0 4 8 12 (mi 0) (mi 1)
  let v2 := blakeG v1 1 5 9 13 (mi 2) (mi 3)
  let v3 := blakeG v2 2 6 10 14 (mi 4) (mi 5)
  let v4 := blakeG v3 3 7 11 15 (mi 6) (mi 7)
  let v5 := blakeG v4 0 5 10 15 (mi 8) (mi 9)
  let v6 := blakeG v5 1 6 11 12 (mi 10) (mi 11)
  let v7 := blakeG v6 2 7 8 13 (mi 12) (mi 13)
  blakeG v7 3 4 9 14 (mi 14) (mi 15)

/-- BLAKE2b compression of one 128-byte block, byte counter `t`,
final-block flag `fin`. -/
def blakeCompress (h : List Nat) (block : List Nat) (t : Nat) (fin : Bool) : List Nat :=
  let m := (List.range 16).map (fun i => bytesToLane ((block.drop (8 * i)).take 8))
  let v0 := h ++ blakeIV
  let v1 := v0.set 12 (kGet v0 12 ^^^ (t % w64))
  let v2 := v1.set 13 (kGet v1 13 ^^^ (t / w64))
  let v3 := if fin then v2.set 14 (kGet v2 14 ^^^ mask64) else v2
  let v := (List.range 12).foldl (blakeRound m) v3
  (List.range 8).map (fun i => kGet h i ^^^ kGet v i ^^^ kGet v (i + 8))

/-- Absorb blocks of the message (fuel-driven; fuel bounds the length). -/
def blakeAbsorb : Nat → List Nat → List Nat → Nat → List Nat
  | 0, h, rest, t => blakeCompress h (rest ++ List.replicate (128 - rest.length) 0) (t + rest.length) true
  | fuel + 1, h, rest, t =>
    if rest.length ≤ 128 then
      blakeCompress h (rest ++ List.replicate (128 - rest.length) 0) (t + rest.length) true
    else
      blakeAbsorb fuel (blakeCompress h (rest.take 128) (t + 128) false) (rest.drop 128) (t + 128)

/-- `blake2b(msg, dkLen = 32)` from `@noble/hashes/blake2b`
(also `sui::hash::blake2b256`): unkeyed BLAKE2b with a 32-byte digest. -/
def blake2b256 (msg : List Nat) : List Nat :=
  let h0 := blakeIV.set 0 (kGet blakeIV 0 ^^^ 0x01010020)
  let h := blakeAbsorb msg.length h0 msg 0
  ((List.range 4).map (fun i => laneBytes (kGet h i))).flatten

/- ## Hex encoding and `ethers.id` -/

/-- Lowercase hex digit, as produced by `Buffer.toString("hex")`. -/
def hexDigitChar (n : Nat) : Char := Char.ofNat (if n < 10 then 48 + n else 87 + n)

/-- Two lowercase hex characters for one byte. -/
def byteHexChars (b : Nat) : List Char := [hexDigitChar (b / 16 % 16), hexDigitChar (b % 16)]

/-- Hex characters of a byte list (`Buffer.toString("hex")`). -/
def bytesToHexChars : List Nat → List Char
  | [] => []
  | b :: bs => byteHexChars b ++ bytesToHexChars bs

/-- `"0x" + Buffer.from(bytes).toString("hex")` as in `maker.ts` / `relayer.ts`. -/
def bytesToHexStr (bs : List Nat) : String := String.mk ('0' :: 'x' :: bytesToHexChars bs)

/-- Numeric value of a hex character (lowercase, uppercase or digit). -/
def hexCharVal (c : Char) : Nat :=
  let n := c.toNat
  if 97 ≤ n then n - 87 else if 65 ≤ n then n - 55 else n - 48

/-- Decode hex characters two at a time, as `Buffer.from(hex, "hex")` does. -/
def hexCharsToBytes : List Char → List Nat
  | c1 :: c2 :: rest => (hexCharVal c1 * 16 + hexCharVal c2) :: hexCharsToBytes rest
  | _ => []

/-- `Uint8Array.from(Buffer.from(secretHex.slice(2), "hex"))`: strip the `0x`
marker and decode the remaining hex characters. -/
def hexStrToBytes (s : String) : List Nat := hexCharsToBytes (s.data.drop 2)

/-- The code points of a string; for the ASCII hex strings the scripts build,
this is exactly their UTF-8 byte sequence. -/
def strAsciiBytes (s : String) : List Nat := s.data.map Char.toNat

/-- `ethers.id(text)`: keccak-256 of the UTF-8 bytes of `text`, rendered as a
`0x`-prefixed lowercase hex string. -/
def ethersId (s : String) : String := bytesToHexStr (keccak256 (strAsciiBytes s))

/- ## The Move modules of `sui/locker/sources/shared_locker.move` -/

/-- Success or abort of a Move entry function; `abort` carries the error code.
A Move abort rolls the whole transaction back, so an aborted call leaves every
object exactly as it was. -/
inductive MoveResult (α : Type) where
  | ok (a : α)
  | abort (code : Nat)
deriving DecidableEq, Repr

/-- `true` exactly when the call succeeded. -/
def MoveResult.isOk {α : Type} : MoveResult α → Bool
  | .ok _ => true
  | .abort _ => false

namespace shared_locker

/-- Error codes of `fusion_locker::shared_locker`. -/
def E_HASH_MISMATCH : Nat := 0

def E_NOT_RESOLVER : Nat := 1

def E_CLAIM_TOO_EARLY : Nat := 2

def E_REFUND_TOO_EARLY : Nat := 3

/-- The `SharedLocker<T>` object: hashlock bytes, absolute unlock time in
milliseconds, the held coin (modelled by its balance), and the maker and
resolver addresses recorded at lock time. -/
structure SharedLocker where
  hashlock : List Nat
  unlock_date : Nat
  coin : Nat
  maker : Nat
  resolver : Nat
deriving DecidableEq, Repr

/-- `maker_lock`: build the shared locker; `unlock_date` is the clock reading
plus the requested duration, the maker is the transaction sender. -/
def maker_lock (coins : Nat) (hashlock : List Nat) (duration_ms : Nat)
    (resolver : Nat) (now : Nat) (sender : Nat) : SharedLocker :=
  { hashlock := hashlock
    unlock_date := now + duration_ms
    coin := coins
    maker := sender
    resolver := resolver }

/-- Effects of a successful `claim_shared`: the coin transfer and the
`SrcSecretRevealed` event payload. -/
structure ClaimEffects where
  transferTo : Nat
  coin : Nat
  revealedSecret : List Nat
deriving DecidableEq, Repr

/-- `claim_shared`: the sender is never read (the resolver check is commented
out in the source); the call asserts `now < unlock_date`, then
`sha3_256(secret) == hashlock`, and on success transfers the coin to the
caller-supplied `receiver` and emits the secret. -/
def claim_shared (locker : SharedLocker) (secret : List Nat) (receiver : Nat)
    (sender : Nat) (now : Nat) : MoveResult ClaimEffects :=
  if ¬ now < locker.unlock_date then .abort E_CLAIM_TOO_EARLY
  else if ¬ sha3_256 secret = locker.hashlock then .abort E_HASH_MISMATCH
  else .ok { transferTo := receiver, coin := locker.coin, revealedSecret := secret }

/-- Effects of a successful refund: the coin goes back to the recorded maker. -/
structure RefundEffects where
  transferTo : Nat
  coin : Nat
deriving DecidableEq, Repr

/-- `refund_shared`: asserts the sender is the maker, then that the deadline
has passed; on success transfers the coin back to the maker. -/
def refund_shared (locker : SharedLocker) (sender : Nat) (now : Nat) :
    MoveResult RefundEffects :=
  if ¬ sender = locker.maker then .abort E_NOT_RESOLVER
  else if ¬ locker.unlock_date ≤ now then .abort E_REFUND_TOO_EARLY
  else .ok { transferTo := locker.maker, coin := locker.coin }

end shared_locker

namespace locker

/-- Error codes of `fusion_locker::locker`. -/
def E_CLAIM_TOO_EARLY : Nat := 0

def E_HASH_MISMATCH : Nat := 1

def E_REFUND_TOO_EARLY : Nat := 2

/-- The transferable `Locker<T>` object. -/
structure Locker where
  hashlock : List Nat
  unlock_date : Nat
  coin : Nat
  maker : Nat
deriving DecidableEq, Repr

/-- `lock`: build the locker owned by the resolver. -/
def lock (coins : Nat) (hashlock : List Nat) (duration_ms : Nat)
    (now : Nat) (sender : Nat) : Locker :=
  { hashlock := hashlock, unlock_date := now + duration_ms, coin := coins, maker := sender }

/-- `claim`: asserts `now < unlock_date`, then `blake2b256(secret) == hashlock`
(this module's native hash is BLAKE2b-256); transfers to the caller-supplied
receiver and emits the secret. The entry takes no `TxContext`, so no sender
is ever inspected. -/
def claim (l : Locker) (secret : List Nat) (receiver : Nat) (now : Nat) :
    MoveResult shared_locker.ClaimEffects :=
  if ¬ now < l.unlock_date then .abort E_CLAIM_TOO_EARLY
  else if ¬ blake2b256 secret = l.hashlock then .abort E_HASH_MISMATCH
  else .ok { transferTo := receiver, coin := l.coin, revealedSecret := secret }

/-- `refund`: the entry takes only the locker and the clock — no `TxContext`,
so the caller's identity is never read; it asserts only that the deadline has
passed and always transfers the coin to the stored maker. The unused `sender`
argument records who drove the transaction. -/
def refund (l : Locker) (sender : Nat) (now : Nat) : MoveResult shared_locker.RefundEffects :=
  if ¬ l.unlock_date ≤ now then .abort E_REFUND_TOO_EARLY
  else .ok { transferTo := l.maker, coin := l.coin }

end locker

/- ## The correlation store of `maker.ts` / `relayer.ts` (`secretMapping.json`) -/

/-- One value of `secretMapping.json`. The maker writes `{ lockerId }`
entries; the Ethereum-leg tooling writes `{ escrowAddress, immutables }`
entries. Absent JSON fields are `none`. -/
structure MapEntry where
  escrowAddress : Option String
  immutables : Option (List Nat)
  lockerId : Option String
deriving DecidableEq, Repr

/-- The JSON object, keyed by `0x`-hex digest strings. A JS property write
shadows the previous binding, so we model assignment by prepending. -/
def Store : Type := List (String × MapEntry)

/-- `secretHashToEscrow[key]`. -/
def lookupStore (k : String) : Store → Option MapEntry
  | [] => none
  | (k', v) :: rest => if k = k' then some v else lookupStore k rest

/-- `mapping[key] = value`. -/
def insertStore (k : String) (v : MapEntry) (s : Store) : Store := (k, v) :: s

/- ## `maker.ts` -/

/-- The keccak variant key the maker records:
`ethers.id("0x" + secret.toString("hex"))`. -/
def makerKeccakKey (secret : List Nat) : String := ethersId (bytesToHexStr secret)

/-- The BLAKE2b variant key the maker records:
`"0x" + Buffer.from(blake2b(secret, { dkLen: 32 })).toString("hex")`. -/
def makerBlakeKey (secret : List Nat) : String := bytesToHexStr (blake2b256 secret)

/-- The hashlock vector the maker passes to `shared_locker::maker_lock`:
`secretHashVec = Array.from(secretHashBlake)`, i.e. the BLAKE2b-256 digest of
the secret (not the sha3-256 digest the maker also computes and logs). -/
def makerHashlockVec (secret : List Nat) : List Nat := blake2b256 secret

/-- `maker.ts` lines 143–152: record `{ lockerId }` in `secretMapping.json`
under the keccak variant key and then under the BLAKE2b variant key. -/
def makerRecord (store : Store) (secret : List Nat) (lockerId : String) : Store :=
  insertStore (makerBlakeKey secret) ⟨none, none, some lockerId⟩
    (insertStore (makerKeccakKey secret) ⟨none, none, some lockerId⟩ store)

/-- The on-chain locker `makerLock` creates: `maker_lock` called with the
BLAKE2b hashlock vector. -/
def makerLockLocker (secret : List Nat) (coins duration_ms resolver now sender : Nat) :
    shared_locker.SharedLocker :=
  shared_locker.maker_lock coins (makerHashlockVec secret) duration_ms resolver now sender

/- ## `relayer.ts` -/

/-- `hashSecret` in `relayer.ts`: the `0x`-hex BLAKE2b-256 digest string. -/
def hashSecret (secret : List Nat) : String := bytesToHexStr (blake2b256 secret)

/-- Outcome of `submitSecretToEthereum`: either the lookup missed and the
function logged and returned, or it went on to call `withdraw` on the mapped
escrow. When the entry has no `escrowAddress` (the maker writes bare
`{ lockerId }` entries), the code still proceeds and constructs an
`ethers.Contract` with an undefined address, which throws — modelled as
`badAddress`. -/
inductive EthAction where
  | skipped (secretHash : String)
  | badAddress (secretHex : String)
  | submitted (escrowAddress : String) (secretHex : String)
deriving DecidableEq, Repr

/-- `submitSecretToEthereum(secretHex)` (relayer.ts lines 145–164). The store
is never mutated; we return it alongside the action to state that. -/
def submitSecretToEthereum (store : Store) (secretHex : String) : EthAction × Store :=
  let secretHash := ethersId secretHex
  match lookupStore secretHash store with
  | none => (.skipped secretHash, store)
  | some m =>
    match m.escrowAddress with
    | none => (.badAddress secretHex, store)
    | some addr => (.submitted addr secretHex, store)

/-- Outcome of `submitSecretToSui`: a logged miss, or a `claim_shared`
transaction built from the mapped `lockerId` and the raw secret bytes. -/
inductive SuiAction where
  | skipped (secretHash : String)
  | claimed (lockerId : String) (secretBytes : List Nat)
deriving DecidableEq, Repr

/-- The mapping resolution of `submitSecretToSui`: look up the BLAKE2b key,
fall back to the raw hex string key, and require a `lockerId`
(`if (!mapping || !mapping.lockerId) return`). -/
def suiResolve (store : Store) (secretHex : String) : Option String :=
  match (lookupStore (hashSecret (hexStrToBytes secretHex)) store).orElse
      (fun _ => lookupStore secretHex store) with
  | none => none
  | some m => m.lockerId

/-- `submitSecretToSui(secretHex)` (relayer.ts lines 192–246). -/
def submitSecretToSui (store : Store) (secretHex : String) : SuiAction × Store :=
  let secretBytes := hexStrToBytes secretHex
  let blake := hashSecret secretBytes
  match suiResolve store secretHex with
  | none => (.skipped blake, store)
  | some lockerId => (.claimed lockerId secretBytes, store)

/-- The Sui watcher's `onMessage` handler: re-encode the event's secret bytes
as a hex string and forward to Ethereum. -/
def onSuiSecretRevealed (store : Store) (secretVec : List Nat) : EthAction × Store :=
  submitSecretToEthereum store (bytesToHexStr secretVec)

/-- The Ethereum watcher's log handler: forward the event's hex secret to Sui. -/
def onEthereumSecretRevealed (store : Store) (secretHex : String) : SuiAction × Store :=
  submitSecretToSui store secretHex

/-- Deliver the same Sui revelation twice, threading the store, and collect
both actions (at-least-once delivery from the watcher layer). -/
def runTwiceEth (store : Store) (secretVec : List Nat) : List EthAction :=
  let r1 := onSuiSecretRevealed store secretVec
  let r2 := onSuiSecretRevealed r1.2 secretVec
  [r1.1, r2.1]

/-- Number of `withdraw` submissions among the collected actions. -/
def ethSubmissionCount (as : List EthAction) : Nat :=
  (as.filter fun a => match a with | .submitted _ _ => true | _ => false).length

/- ## Lifecycle of one shared-locker instance -/

/-- A transaction attempted against one shared locker instance. -/
inductive LockerOp where
  | claimOp (secret : List Nat) (receiver sender now : Nat)
  | refundOp (sender now : Nat)

/-- One attempted transaction against the instance. The Sui object model makes
`claim_shared` and `refund_shared` take the `SharedLocker` by value and delete
its `UID` on success, so a successful call consumes the object (`none`); an
aborted transaction leaves it untouched. On a consumed (deleted) object no
transaction can even be formed, so every later call fails. Returns the new
state and whether the call succeeded. -/
def stepShared : Option shared_locker.SharedLocker → LockerOp →
    Option shared_locker.SharedLocker × Bool
  | none, _ => (none, false)
  | some l, .claimOp s r snd now =>
    match shared_locker.claim_shared l s r snd now with
    | .ok _ => (none, true)
    | .abort _ => (some l, false)
  | some l, .refundOp snd now =>
    match shared_locker.refund_shared l snd now with
    | .ok _ => (none, true)
    | .abort _ => (some l, false)

/-- Run a sequence of attempted transactions, counting the successful ones. -/
def runShared : Option shared_locker.SharedLocker → List LockerOp →
    Option shared_locker.SharedLocker × Nat
  | st, [] => (st, 0)
  | st, op :: ops =>
    let r := stepShared st op
    let rest := runShared r.1 ops
    (rest.1, (if r.2 then 1 else 0) + rest.2)

/- ## Helper lemmas -/

theorem stepShared_none (op : LockerOp) : stepShared none op = (none, false) := by
  cases op <;> rfl

theorem runShared_none (ops : List LockerOp) : runShared none ops = (none, 0) := by
  induction ops with
  | nil => rfl
  | cons op ops ih => simp [runShared, stepShared_none, ih]

theorem stepShared_some (l : shared_locker.SharedLocker) (op : LockerOp) :
    stepShared (some l) op = (none, true) ∨ stepShared (some l) op = (some l, false) := by
  cases op with
  | claimOp s r snd now =>
    cases h : shared_locker.claim_shared l s r snd now <;> simp [stepShared, h]
  | refundOp snd now =>
    cases h : shared_locker.refund_shared l snd now <;> simp [stepShared, h]

theorem runShared_some_le_one (l : shared_locker.SharedLocker) (ops : List LockerOp) :
    (runShared (some l) ops).2 ≤ 1 := by
  induction ops generalizing l with
  | nil => simp [runShared]
  | cons op ops ih =>
    rcases stepShared_some l op with h | h
    · simp [runShared, h, runShared_none]
    · simp [runShared, h]
      exact ih l

/-- One hex round trip per byte: decoding the two characters that encode a
byte below 256 recovers the byte. -/
theorem hexPairRound :
    ∀ b : Fin 256, hexCharVal (hexDigitChar ((b : Nat) / 16 % 16)) * 16 +
      hexCharVal (hexDigitChar ((b : Nat) % 16)) = (b : Nat) := by
  decide

theorem hexCharsToBytes_bytesToHexChars (bs : List Nat) (h : ∀ b ∈ bs, b < 256) :
    hexCharsToBytes (bytesToHexChars bs) = bs := by
  induction bs with
  | nil => rfl
  | cons b rest ih =>
    have hb : b < 256 := h b (by simp)
    have hpair : hexCharVal (hexDigitChar (b / 16 % 16)) * 16 +
        hexCharVal (hexDigitChar (b % 16)) = b := hexPairRound ⟨b, hb⟩
    simp [bytesToHexChars, byteHexChars, hexCharsToBytes, hpair,
      ih (fun x hx => h x (by simp [hx]))]

/-- Decoding the hex string the scripts build recovers the secret bytes. -/
theorem hexStrToBytes_bytesToHexStr (bs : List Nat) (h : ∀ b ∈ bs, b < 256) :
    hexStrToBytes (bytesToHexStr bs) = bs := by
  simp only [hexStrToBytes, bytesToHexStr]
  exact hexCharsToBytes_bytesToHexChars bs h

theorem lookup_insert_same (k : String) (v : MapEntry) (s : Store) :
    lookupStore k (insertStore k v s) = some v := by
  simp [lookupStore, insertStore]

theorem lookup_makerRecord_keccak (store : Store) (s : List Nat) (lid : String) :
    lookupStore (makerKeccakKey s) (makerRecord store s lid) =
      some ⟨none, none, some lid⟩ := by
  unfold makerRecord insertStore
  by_cases h : makerKeccakKey s = makerBlakeKey s <;> simp [lookupStore, h]

theorem lookup_makerRecord_blake (store : Store) (s : List Nat) (lid : String) :
    lookupStore (makerBlakeKey s) (makerRecord store s lid) =
      some ⟨none, none, some lid⟩ := by
  unfold makerRecord insertStore
  simp [lookupStore]

/- ## Concrete inputs -/

/-- A concrete 32-byte secret (bytes 0,1,…,31). -/
def secretA : List Nat := List.range 32

/-- A concrete 32-byte secret (byte 7 repeated). -/
def secretB : List Nat := List.replicate 32 7

/-- A concrete 32-byte secret (byte 9 repeated). -/
def secretC : List Nat := List.replicate 32 9

/-- A short concrete secret for witness instantiation. -/
def secretD : List Nat := [0, 171, 255]

/-- An Ethereum-leg correlation entry, as the destination-escrow tooling
would record it: escrow address and immutables present, no Sui locker. -/
def ethEscrowEntry : MapEntry := ⟨some "0xEscrow", some [1, 2, 3], none⟩

/-- A store holding `ethEscrowEntry` under the keccak variant key of
`secretB`. -/
def dupStore : Store := [(makerKeccakKey secretB, ethEscrowEntry)]

/-- The key `submitSecretToEthereum` derives during lookup
(`ethers.id(secretHex)`, relayer.ts line 146). -/
def relayerEthKey (secretHex : String) : String := ethersId secretHex

/-- The key `submitSecretToSui` derives during lookup
(`hashSecret(secretBytes)`, relayer.ts lines 193–194). -/
def relayerSuiKey (secretHex : String) : String := hashSecret (hexStrToBytes secretHex)

/- ## Claim theorems -/

/-- C1: the happy path is broken in the code. `maker.ts` passes
`secretHashVec = Array.from(secretHashBlake)` — the BLAKE2b-256 digest — as
the hashlock of the shared locker, while `claim_shared` verifies
`sha3_256(secret) == hashlock`. For the concrete 32-byte secret `secretA`
the two digests differ, so a claim presenting the very secret the maker
generated, well before the deadline, aborts with `E_HASH_MISMATCH` instead
of succeeding: the stored hashlock never equals the ledger-native sha3-256
hash of the secret as computed at claim time. -/
theorem C1_happy_path_hash_mismatch :
    sha3_256 secretA ≠ makerHashlockVec secretA
    ∧ shared_locker.claim_shared (makerLockLocker secretA 5 3600000 2 0 1) secretA 3 4 1000
        = .abort shared_locker.E_HASH_MISMATCH := by
  decide

/-- C2 counterexample: the relayer has no `markForwarded` marker. With a
complete Ethereum-leg mapping present, delivering the same Sui revelation
event twice makes `submitSecretToEthereum` submit a `withdraw` transaction
twice — not at most once as the claim states. -/
theorem C2_duplicate_delivery_resubmits :
    runTwiceEth dupStore secretB =
      [EthAction.submitted "0xEscrow" (bytesToHexStr secretB),
       EthAction.submitted "0xEscrow" (bytesToHexStr secretB)]
    ∧ ethSubmissionCount (runTwiceEth dupStore secretB) = 2 := by
  have h : submitSecretToEthereum dupStore (bytesToHexStr secretB) =
      (.submitted "0xEscrow" (bytesToHexStr secretB), dupStore) := by
    simp [submitSecretToEthereum, dupStore, lookupStore, makerKeccakKey, ethEscrowEntry]
  constructor
  · simp [runTwiceEth, onSuiSecretRevealed, h]
  · simp [runTwiceEth, onSuiSecretRevealed, h, ethSubmissionCount]

/-- C2 (amended): each delivery of a revealed secret whose keccak variant is
mapped to an escrow address submits one claim; since the store holds no
forwarded marker and is not updated, a second delivery of the same
`(ledgerId, secret)` submits again — two submissions, one per delivery. -/
theorem C2_one_submission_per_delivery (store : Store) (s : List Nat) (e : MapEntry)
    (addr : String)
    (hl : lookupStore (ethersId (bytesToHexStr s)) store = some e)
    (ha : e.escrowAddress = some addr) :
    runTwiceEth store s =
      [EthAction.submitted addr (bytesToHexStr s), EthAction.submitted addr (bytesToHexStr s)]
    ∧ ethSubmissionCount (runTwiceEth store s) = 2 := by
  have h : submitSecretToEthereum store (bytesToHexStr s) =
      (.submitted addr (bytesToHexStr s), store) := by
    simp [submitSecretToEthereum, hl, ha]
  constructor
  · simp [runTwiceEth, onSuiSecretRevealed, h]
  · simp [runTwiceEth, onSuiSecretRevealed, h, ethSubmissionCount]

/-- C2 witness: the amended theorem applied to the concrete store and secret. -/
theorem C2_one_submission_per_delivery_witness :
    lookupStore (ethersId (bytesToHexStr secretB)) dupStore = some ethEscrowEntry
    ∧ ethEscrowEntry.escrowAddress = some "0xEscrow"
    ∧ (runTwiceEth dupStore secretB =
        [EthAction.submitted "0xEscrow" (bytesToHexStr secretB),
         EthAction.submitted "0xEscrow" (bytesToHexStr secretB)]
      ∧ ethSubmissionCount (runTwiceEth dupStore secretB) = 2) := by
  have hl : lookupStore (ethersId (bytesToHexStr secretB)) dupStore = some ethEscrowEntry := by
    simp [dupStore, lookupStore, makerKeccakKey]
  exact ⟨hl, rfl, C2_one_submission_per_delivery dupStore secretB ethEscrowEntry "0xEscrow" hl rfl⟩

/-- C3 counterexample: the Ethereum path checks only that *some* entry
exists, not that it carries an Ethereum escrow reference. The maker's own
recording writes bare `{ lockerId }` entries under the keccak key, so a
revelation whose entry lacks the counterpart (Ethereum) reference is *not*
skipped: the handler proceeds and constructs the withdraw call with an
undefined escrow address (which throws in `ethers`), contradicting
"logs and returns without attempting any ledger submission". -/
theorem C3_lockerId_only_entry_not_skipped :
    lookupStore (relayerEthKey (bytesToHexStr secretC)) (makerRecord [] secretC "0xLockerC") =
      some ⟨none, none, some "0xLockerC"⟩
    ∧ (onSuiSecretRevealed (makerRecord [] secretC "0xLockerC") secretC).1 =
        EthAction.badAddress (bytesToHexStr secretC) := by
  refine ⟨lookup_makerRecord_keccak [] secretC "0xLockerC", ?_⟩
  decide

/-- C3 (amended): when no correlation entry exists for the derived variant,
both handlers log and return without submitting, and the store is unchanged;
on the Sui path this extends to entries without a `lockerId`
(`suiResolve = none`). On the Ethereum path, however, only entry existence is
checked, so an entry lacking the Ethereum escrow reference is not skipped
(see the counterexample). -/
theorem C3_correlation_miss_skips (store : Store) (secretHex : String) :
    (lookupStore (ethersId secretHex) store = none →
      submitSecretToEthereum store secretHex = (.skipped (ethersId secretHex), store))
    ∧ (suiResolve store secretHex = none →
      submitSecretToSui store secretHex =
        (.skipped (hashSecret (hexStrToBytes secretHex)), store)) := by
  constructor
  · intro h
    simp [submitSecretToEthereum, h]
  · intro h
    simp [submitSecretToSui, h]

/-- C3 witness: the amended theorem applied to the empty store. -/
theorem C3_correlation_miss_skips_witness :
    lookupStore (ethersId "0xdead") ([] : Store) = none
    ∧ suiResolve ([] : Store) "0xdead" = none
    ∧ submitSecretToEthereum ([] : Store) "0xdead" = (.skipped (ethersId "0xdead"), [])
    ∧ submitSecretToSui ([] : Store) "0xdead" =
        (.skipped (hashSecret (hexStrToBytes "0xdead")), []) :=
  ⟨rfl, rfl, (C3_correlation_miss_skips [] "0xdead").1 rfl,
    (C3_correlation_miss_skips [] "0xdead").2 rfl⟩

/-- C4: claim precondition iff. On the shared locker a claim succeeds exactly
when it runs strictly before the stored deadline and the ledger-native
sha3-256 of the presented secret equals the stored hashlock; on the
transferable locker likewise with its native BLAKE2b-256. Otherwise the call
aborts, and an aborted transaction leaves the locker untouched: the only
outcomes of a claim attempt are success (consuming the object) or failure
with the identical locker state. -/
theorem C4_claim_iff (l : shared_locker.SharedLocker) (lo : locker.Locker)
    (s : List Nat) (r snd now : Nat) :
    ((shared_locker.claim_shared l s r snd now).isOk = true ↔
      now < l.unlock_date ∧ sha3_256 s = l.hashlock)
    ∧ ((locker.claim lo s r now).isOk = true ↔
      now < lo.unlock_date ∧ blake2b256 s = lo.hashlock)
    ∧ (stepShared (some l) (.claimOp s r snd now) = (none, true) ∨
       stepShared (some l) (.claimOp s r snd now) = (some l, false)) := by
  refine ⟨?_, ?_, stepShared_some l _⟩
  · unfold shared_locker.claim_shared
    split_ifs with h1 h2 <;> simp [MoveResult.isOk] <;> tauto
  · unfold locker.claim
    split_ifs with h1 h2 <;> simp [MoveResult.isOk] <;> tauto

/-- C5 counterexample: in the transferable-locker module, `refund` succeeds
for a transaction whose sender is not the maker (the entry reads no sender at
all), refuting "a refund succeeds only if the transaction sender is the
original locker" for that module. -/
theorem C5_refund_without_sender_check :
    (locker.refund ⟨[], 0, 7, 1⟩ 2 0).isOk = true
    ∧ (locker.Locker.maker ⟨[], 0, 7, 1⟩) ≠ 2 := by
  decide

/-- C5 (amended): on the shared locker, refund succeeds iff invoked at or
after the deadline by the maker; on the transferable locker the deadline
condition alone decides success, with any sender. In both modules a
successful refund transfers the held coin back to the recorded maker. -/
theorem C5_refund_iff (sl : shared_locker.SharedLocker) (lo : locker.Locker)
    (sender now : Nat) :
    ((shared_locker.refund_shared sl sender now).isOk = true ↔
      sender = sl.maker ∧ sl.unlock_date ≤ now)
    ∧ ((locker.refund lo sender now).isOk = true ↔ lo.unlock_date ≤ now)
    ∧ (shared_locker.refund_shared sl sender now = .ok ⟨sl.maker, sl.coin⟩ ∨
       (shared_locker.refund_shared sl sender now).isOk = false)
    ∧ (locker.refund lo sender now = .ok ⟨lo.maker, lo.coin⟩ ∨
       (locker.refund lo sender now).isOk = false) := by
  refine ⟨?_, ?_, ?_, ?_⟩
  · unfold shared_locker.refund_shared
    split_ifs with h1 h2 <;> simp [MoveResult.isOk] <;> omega
  · unfold locker.refund
    split_ifs with h1 <;> simp [MoveResult.isOk] <;> omega
  · unfold shared_locker.refund_shared
    split_ifs <;> simp [MoveResult.isOk]
  · unfold locker.refund
    split_ifs <;> simp [MoveResult.isOk]

/-- C6: terminal-state exclusivity for a shared locker instance. Over any
sequence of attempted claim and refund transactions, at most one succeeds;
once the object is consumed and deleted (state `none`) no transaction ever
succeeds again; and every single attempt either succeeds — consuming the
object — or fails leaving it unchanged. Claimed and Refunded are therefore
mutually exclusive and irreversible. -/
theorem C6_terminal_exclusive (l : shared_locker.SharedLocker) (ops : List LockerOp) :
    (runShared (some l) ops).2 ≤ 1
    ∧ runShared none ops = (none, 0)
    ∧ (∀ op, stepShared (some l) op = (none, true) ∨
        stepShared (some l) op = (some l, false)) :=
  ⟨runShared_some_le_one l ops, runShared_none ops, fun op => stepShared_some l op⟩

/-- C7: hash derivation is deterministic and identical across components.
For any byte-valued secret, the keccak key the relayer derives during lookup
(`ethers.id` of the 0x-prefixed lowercase hex) and the BLAKE2b key it derives
from the decoded secret bytes coincide with the keys the maker recorded, so
both lookups after a recording find the stored entry. -/
theorem C7_variant_keys_agree (s : List Nat) (h : ∀ b ∈ s, b < 256) :
    relayerEthKey (bytesToHexStr s) = makerKeccakKey s
    ∧ relayerSuiKey (bytesToHexStr s) = makerBlakeKey s
    ∧ ∀ store lid,
        lookupStore (relayerEthKey (bytesToHexStr s)) (makerRecord store s lid) =
          some ⟨none, none, some lid⟩
        ∧ lookupStore (relayerSuiKey (bytesToHexStr s)) (makerRecord store s lid) =
          some ⟨none, none, some lid⟩ := by
  have h2 : relayerSuiKey (bytesToHexStr s) = makerBlakeKey s := by
    unfold relayerSuiKey hashSecret makerBlakeKey
    rw [hexStrToBytes_bytesToHexStr s h]
  refine ⟨rfl, h2, fun store lid => ⟨?_, ?_⟩⟩
  · exact lookup_makerRecord_keccak store s lid
  · rw [h2]
    exact lookup_makerRecord_blake store s lid

/-- C7 witness: the key-agreement theorem applied to the concrete secret
`secretD`. -/
theorem C7_variant_keys_agree_witness :
    (∀ b ∈ secretD, b < 256)
    ∧ (relayerEthKey (bytesToHexStr secretD) = makerKeccakKey secretD
      ∧ relayerSuiKey (bytesToHexStr secretD) = makerBlakeKey secretD
      ∧ ∀ store lid,
          lookupStore (relayerEthKey (bytesToHexStr secretD)) (makerRecord store secretD lid) =
            some ⟨none, none, some lid⟩
          ∧ lookupStore (relayerSuiKey (bytesToHexStr secretD)) (makerRecord store secretD lid) =
            some ⟨none, none, some lid⟩) :=
  ⟨by decide, C7_variant_keys_agree secretD (by decide)⟩

/-- C8: after the maker records a lock for a secret, looking the correlation
store up by the keccak variant key and by the BLAKE2b variant key returns the
same entry, holding the same `lockerId`. -/
theorem C8_both_variants_same_locker (store : Store) (s : List Nat) (lid : String) :
    lookupStore (makerKeccakKey s) (makerRecord store s lid) = some ⟨none, none, some lid⟩
    ∧ lookupStore (makerBlakeKey s) (makerRecord store s lid) = some ⟨none, none, some lid⟩ :=
  ⟨lookup_makerRecord_keccak store s lid, lookup_makerRecord_blake store s lid⟩

/-- C9: `claim_shared` never restricts the caller — its result is the same
for every transaction sender (the resolver check is commented out in the
source) — and on success the locked coin is transferred to the
caller-supplied `receiver` argument, not to the stored resolver or maker. -/
theorem C9_claim_shared_any_sender (l : shared_locker.SharedLocker) (s : List Nat)
    (r sender sender' now : Nat) :
    shared_locker.claim_shared l s r sender now = shared_locker.claim_shared l s r sender' now
    ∧ ((shared_locker.claim_shared l s r sender now).isOk = true ↔
        now < l.unlock_date ∧ sha3_256 s = l.hashlock)
    ∧ (shared_locker.claim_shared l s r sender now = .ok ⟨r, l.coin, s⟩ ∨
       (shared_locker.claim_shared l s r sender now).isOk = false) := by
  refine ⟨rfl, ?_, ?_⟩
  · unfold shared_locker.claim_shared
    split_ifs with h1 h2 <;> simp [MoveResult.isOk] <;> tauto
  · unfold shared_locker.claim_shared
    split_ifs <;> simp [MoveResult.isOk]

/-- C10: in the transferable-locker module, `refund` takes no transaction
context, so the caller's identity plays no role in its outcome — any sender
may refund once the deadline has passed — yet a successful refund always
transfers the released coin to the maker address stored at lock time. -/
theorem C10_refund_any_sender_pays_maker (lo : locker.Locker) (sender sender' now : Nat) :
    locker.refund lo sender now = locker.refund lo sender' now
    ∧ ((locker.refund lo sender now).isOk = true ↔ lo.unlock_date ≤ now)
    ∧ (locker.refund lo sender now = .ok ⟨lo.maker, lo.coin⟩ ∨
       (locker.refund lo sender now).isOk = false) := by
  refine ⟨rfl, ?_, ?_⟩
  · unfold locker.refund
    split_ifs with h1 <;> simp [MoveResult.isOk] <;> omega
  · unfold locker.refund
    split_ifs <;> simp [MoveResult.isOk]
